import Mathlib

/-!
Verification development for the tds-virtual-ta retrieval pipeline.

The two Python modules are shallowly embedded:

* `src/app.py` (namespace `App`): the startup loader that reads the
  `content` table into the module-level `data` list and the numpy
  `embeddings` matrix, and the answer endpoint that embeds the question,
  scores every embedded document by dot product, selects the top
  `min(5, N)` indices with `np.argsort(...)[-k:][::-1]`, and returns the
  selected rows of `data` together with their `{url, title}` links.

* `src/scrape_data.py` (namespace `Scrape`): the GitHub fetcher with its
  three-attempt 503 retry loop, the Discourse fetcher with its date-window
  filters, the embedding call that truncates input to 8192 characters, and
  the `main` ingestion loop that inserts one row per fetched item into the
  SQLite `content` table regardless of the embedding outcome.

External effects (HTTP calls, the SQLite file, clock sleeps) are passed in
as explicit oracles; machine floats are modelled as rationals; fallible
steps return `Except`/`Option` mirroring the try/except structure of the
source.
-/

/-- A row of the SQLite `content` table as loaded by `app.py`
(`SELECT id, source, content, url, title, embedding FROM content`), after
the `json.loads(r[5]) if r[5] else None` step: `embedding` is `none` when
the column is NULL. -/
structure Doc where
  id : ℕ
  source : String
  content : List Char
  url : String
  title : String
  embedding : Option (List ℚ)
deriving Repr, DecidableEq

/-- A raw scraped item, the dict shape produced by both fetchers in
`scrape_data.py`: `{source, content, url, title}`. -/
structure RawDoc where
  source : String
  content : List Char
  url : String
  title : String
deriving Repr, DecidableEq

/-- A link of the answer payload (`class Link` in `app.py`). -/
structure Link where
  url : String
  text : String
deriving Repr, DecidableEq

/-- The answer payload (`class AnswerResponse` in `app.py`). -/
structure AnswerResponse where
  answer : String
  links : List Link
deriving Repr, DecidableEq

/-- The id-less projection of a stored row, used to compare stored content
across runs independently of the auto-increment `id` column. -/
structure StoredDoc where
  source : String
  content : List Char
  url : String
  title : String
  embedding : Option (List ℚ)
deriving Repr, DecidableEq

/-- Forget the auto-increment id of a row. -/
def Doc.toStored (r : Doc) : StoredDoc :=
  { source := r.source, content := r.content, url := r.url, title := r.title,
    embedding := r.embedding }

/-- Python truthiness on an optional list: both `None` and the empty list
are falsy, so `x if x else None` maps them to `None` and keeps any
non-empty list.  Used by the `embedding` column round-trip in both files
(`json.dumps(embedding) if embedding else None` on insert,
`if d["embedding"]` on load). -/
def pyOptList (e : Option (List ℚ)) : Option (List ℚ) :=
  match e with
  | none => none
  | some l => if l = [] then none else some l

/-- The string actually placed in the embedding request payload:
`text[:8192]`, i.e. the first `min 8192 (length text)` characters.  Both
`get_embedding` functions (in `app.py` and in `scrape_data.py`) build
their payload from exactly this value. -/
def truncatedInput (t : List Char) : List Char := t.take 8192

/-- Default row used only as the `List.getD` fallback; never selected when
indices are in bounds. -/
def dDoc : Doc :=
  { id := 0, source := "", content := [], url := "", title := "", embedding := none }

/-- Dot product of two equal-length vectors (`np.dot` on 1-D operands). -/
def dotProd (xs ys : List ℚ) : ℚ := ((xs.zip ys).map (fun p => p.1 * p.2)).sum

/-- Insert index `i` into an index list that is already sorted by
ascending score: `i` is placed before the first entry with a strictly
larger score, hence after every entry whose score is `≤` its own.  This is
the stable ascending behaviour of `np.argsort` (numpy introsort degrades
to a stable insertion sort on the small score arrays at issue; ties keep
ascending index order). -/
def ordInsert (s : List ℚ) (i : ℕ) : List ℕ → List ℕ
  | [] => [i]
  | j :: rest => if s.getD i 0 < s.getD j 0 then i :: j :: rest else j :: ordInsert s i rest

/-- Model of `np.argsort(similarities)`: the permutation of
`range similarities.length` listing indices by ascending score, ties in
ascending index order (stable). -/
def argsort (s : List ℚ) : List ℕ :=
  (List.range s.length).foldl (fun acc i => ordInsert s i acc) []

/-- Model of `np.argsort(similarities)[-k:][::-1]`.  For `k ≥ 1` the
Python slice `[-k:]` keeps the last `min k len` entries, which is
`List.drop (len - k)`; for `k = 0` the slice `[-0:]` is the whole array
(`a[0:]`), so the reversal returns every index. -/
def topKIndices (sims : List ℚ) (k : ℕ) : List ℕ :=
  if k = 0 then (argsort sims).reverse
  else ((argsort sims).drop (sims.length - k)).reverse

/-- Model of `np.array(list_of_rows)` as used in `load_data`: the empty
list gives the empty `(0,)`-shaped array, a non-empty list of equal-length
rows gives the `(N, D)` matrix, and a ragged list raises. -/
def npArray (rows : List (List ℚ)) : Except String (List (List ℚ)) :=
  match rows with
  | [] => Except.ok []
  | r :: rest =>
    if ∀ x ∈ rest, x.length = r.length then Except.ok (r :: rest)
    else Except.error "inhomogeneous array"

/-- Model of `np.dot(embeddings, q_embedding)` at the query site.  A
non-empty `(N, D)` matrix dotted with a length-`D` vector yields the `N`
row scores, and raises on dimension mismatch.  When `embeddings` is the
empty `(0,)`-shaped array the call raises for a non-empty query vector
(shapes `(0,)` and `(D,)` are not aligned); for an empty query vector it
returns a 0-d scalar on which the subsequent `np.argsort` raises instead,
so the model reports the error here in both cases. -/
def npDot (m : List (List ℚ)) (q : List ℚ) : Except String (List ℚ) :=
  match m with
  | [] => Except.error "np.dot: shapes not aligned"
  | r :: rest =>
    if ∀ x ∈ r :: rest, x.length = q.length then
      Except.ok ((r :: rest).map (fun row => dotProd row q))
    else Except.error "np.dot: shapes not aligned"

/-- Model of the list comprehension `[data[i] for i in top_k_indices]`:
each index selects `data[i]`, and an out-of-range index raises
`IndexError` (argsort indices are non-negative, so no wraparound). -/
def getItems (data : List Doc) : List ℕ → Except String (List Doc)
  | [] => Except.ok []
  | i :: rest =>
    if i < data.length then
      match getItems data rest with
      | Except.ok ds => Except.ok (data.getD i dDoc :: ds)
      | Except.error e => Except.error e
    else Except.error "IndexError"

namespace App

/-- The module-level mutable state of `app.py`: the `data` list and the
`embeddings` matrix (`None` until a successful load). -/
structure AppState where
  data : List Doc
  embeddings : Option (List (List ℚ))
deriving Repr, DecidableEq

/-- The state at import time: `data = []`, `embeddings = None`. -/
def initState : AppState := { data := [], embeddings := none }

/-- The comprehension filter `[d["embedding"] for d in data if d["embedding"]]`
applied to one row: keeps exactly the truthy (present, non-empty)
embeddings. -/
def presentEmbedding (d : Doc) : Option (List ℚ) := pyOptList d.embedding

/-- `load_data` of `app.py`.  `db` is the outcome of reading the SQLite
table.  On success, `data` is assigned the full row list and `embeddings`
the matrix of truthy embeddings in store order; if building the numpy
array raises (ragged rows), `data` has already been reassigned but
`embeddings` keeps its previous value; any failure before that (connect /
query) is caught and leaves the whole state untouched. -/
def load_data (db : Except String (List Doc)) (st : AppState) : AppState :=
  match db with
  | Except.error _ => st
  | Except.ok rows =>
    match npArray (rows.filterMap presentEmbedding) with
    | Except.ok m => { data := rows, embeddings := some m }
    | Except.error _ => { st with data := rows }

/-- `get_embedding` of `app.py`: posts `{model, input: text[:8192]}` to the
gateway; a failed call raises `HTTPException`, modelled as `Except.error`. -/
def get_embedding (gw : List Char → Option (List ℚ)) (text : List Char) :
    Except String (List ℚ) :=
  match gw (truncatedInput text) with
  | some v => Except.ok v
  | none => Except.error "Embedding error"

/-- The retrieval core of `answer_question`:
`similarities = np.dot(embeddings, q_embedding)`,
`k = min(5, len(embeddings))`,
`top_k_indices = np.argsort(similarities)[-k:][::-1]`,
`top_k_data = [data[i] for i in top_k_indices]`.
When `embeddings` is still `None` the `np.dot` call raises `TypeError`. -/
def top_k_data (st : AppState) (q : List ℚ) : Except String (List Doc) :=
  match st.embeddings with
  | none => Except.error "TypeError: unsupported operand"
  | some m =>
    match npDot m q with
    | Except.error e => Except.error e
    | Except.ok sims => getItems st.data (topKIndices sims (min 5 m.length))

/-- `answer_question` of `app.py`.  `gw` is the embedding gateway, `gen`
the chat-completion gateway consumed as a black box on the assembled
context (the real request also carries the question and optional image,
which the verified claims never inspect).  Every exception inside the
handler is caught and surfaced as a single error response. -/
def answer_question (gw : List Char → Option (List ℚ)) (st : AppState)
    (question : List Char) (gen : String → Except String String) :
    Except String AnswerResponse :=
  match get_embedding gw question with
  | Except.error e => Except.error ("Error processing request: " ++ e)
  | Except.ok q =>
    match top_k_data st q with
    | Except.error e => Except.error ("Error processing request: " ++ e)
    | Except.ok top =>
      match gen (String.intercalate "\n" (top.map (fun d => String.mk d.content))) with
      | Except.error e => Except.error ("Error processing request: " ++ e)
      | Except.ok ans =>
        Except.ok { answer := ans,
                    links := top.map (fun d => { url := d.url, text := d.title }) }

end App

namespace Scrape

/-- `get_embedding` of `scrape_data.py`: same payload truncation as the
query path, but a failed call is caught and reported as `None`. -/
def get_embedding (gw : List Char → Option (List ℚ)) (text : List Char) :
    Option (List ℚ) :=
  gw (truncatedInput text)

/-- One entry of the GitHub contents listing, the fields `scrape_github`
reads: `type`, `name`, `download_url`, `html_url`. -/
structure GFile where
  ftype : String
  name : String
  download_url : String
  html_url : String
deriving Repr, DecidableEq

/-- Outcome of one attempt of the GitHub listing request
(`requests.get(GITHUB_API, ...)` + `raise_for_status`): success with the
parsed file list, an HTTP 503 error (the only retried case), any other
HTTP error, or any other exception (timeouts, JSON errors, a raising
per-file download — all reach the generic `except` clause). -/
inductive ListingOutcome where
  | ok (files : List GFile)
  | err503
  | errHTTP
  | errOther
deriving Repr, DecidableEq

/-- Python `str.endswith` on one suffix, computed as a suffix test on the
character lists. -/
def pyEndsWith (s suffix : String) : Bool := List.isSuffixOf suffix.data s.data

/-- The inner file loop of `scrape_github`: keep entries of type `file`
whose name ends in `.md` or `.txt` (`file["name"].endswith((".md", ".txt"))`),
download each, and append those whose download returns status 200 (`dl`
yields `none` on a non-200 status). -/
def githubFiles (dl : String → Option (List Char)) (files : List GFile) : List RawDoc :=
  files.filterMap (fun f =>
    if f.ftype == "file" && (pyEndsWith f.name ".md" || pyEndsWith f.name ".txt") then
      match dl f.download_url with
      | some text => some { source := "github", content := text, url := f.html_url, title := f.name }
      | none => none
    else none)

/-- The `for attempt in range(3)` retry loop of `scrape_github`, with the
remaining iteration count as fuel.  A 503 sleeps `2 ** attempt` units
(recorded in the sleep trace) and retries; a success returns the scraped
files; any other failure returns the empty list at once; an exhausted
loop also returns the empty list. -/
def githubAttemptLoop (listing : ℕ → ListingOutcome) (dl : String → Option (List Char)) :
    ℕ → ℕ → List ℕ → List RawDoc × List ℕ
  | _, 0, sleeps => ([], sleeps)
  | attempt, fuel + 1, sleeps =>
    match listing attempt with
    | ListingOutcome.ok files => (githubFiles dl files, sleeps)
    | ListingOutcome.err503 =>
      githubAttemptLoop listing dl (attempt + 1) fuel (sleeps ++ [2 ^ attempt])
    | ListingOutcome.errHTTP => ([], sleeps)
    | ListingOutcome.errOther => ([], sleeps)

/-- `scrape_github` of `scrape_data.py`: run the three-attempt loop from
attempt 0 with an empty sleep trace.  Returns the fetched items together
with the trace of back-off delays actually slept. -/
def scrape_github (listing : ℕ → ListingOutcome) (dl : String → Option (List Char)) :
    List RawDoc × List ℕ :=
  githubAttemptLoop listing dl 0 3 []

/-- One post of a topic detail response, the fields read by the inner
post loop: the full-precision creation timestamp (`datetime.strptime` of
`created_at`, modelled as an integer in a fixed monotone encoding of
datetimes), the rendered `cooked` body and the `post_number`. -/
structure DiscoursePost where
  created_at : ℤ
  cooked : List Char
  post_number : ℕ
deriving Repr, DecidableEq

/-- One topic of the category listing: its id, title, the midnight
datetime of its creation date (`strptime(topic["created_at"].split("T")[0],
"%Y-%m-%d")`), and the posts of its detail response — `none` when the
detail request returns a non-200 status (the code checks `status_code ==
200` and silently skips the topic otherwise). -/
structure DiscourseTopic where
  tid : ℕ
  title : String
  created_date : ℤ
  posts : Option (List DiscoursePost)
deriving Repr, DecidableEq

/-- Outcome of one would-be run of the Discourse session: either some
request in the single `try` block raises (authentication, category
discovery, topic listing, a raising topic fetch — all reach the one
`except` clause), or the topic listing is obtained.  The category
discovery itself is absorbed into these two cases: its requests can only
raise, since `category_id` is always truthy after the fallback
assignment, making the `return []` branch at the second
`if not category_id` check unreachable. -/
inductive DiscourseOutcome where
  | raise
  | topics (ts : List DiscourseTopic)
deriving Repr, DecidableEq

/-- The Discourse base URL constant of `scrape_data.py`. -/
def DISCOURSE_URL : String := "https://discourse.onlinedegree.iitm.ac.in"

/-- The dict appended for one accepted post:
`{"source": "discourse", "content": post["cooked"], "url": f"{DISCOURSE_URL}/t/{topic_id}/{post_number}", "title": topic_title}`. -/
def mkPostDoc (tid : ℕ) (title : String) (p : DiscoursePost) : RawDoc :=
  { source := "discourse", content := p.cooked,
    url := DISCOURSE_URL ++ "/t/" ++ toString tid ++ "/" ++ toString p.post_number,
    title := title }

/-- The contribution of one listed topic to the scraped post list: the
topic is considered only when its creation date lies in the inclusive
window; its detail response must have status 200; each post is kept iff
its own timestamp lies in the inclusive window. -/
def topicContrib (s e : ℤ) (t : DiscourseTopic) : List RawDoc :=
  if s ≤ t.created_date ∧ t.created_date ≤ e then
    match t.posts with
    | none => []
    | some ps =>
      ps.filterMap (fun p =>
        if s ≤ p.created_at ∧ p.created_at ≤ e then some (mkPostDoc t.tid t.title p)
        else none)
  else []

/-- `scrape_discourse` of `scrape_data.py`.  The attempt-indexed oracle
records what each hypothetical session run would yield; the code performs
exactly one attempt (`world 0`) — there is no retry loop — and any raise
is caught by the single `except`, returning the empty list.  On success
the nested topic/post loops append in order, i.e. fold the per-topic
contributions over the listing. -/
def scrape_discourse (world : ℕ → DiscourseOutcome) (s e : ℤ) : List RawDoc :=
  match world 0 with
  | DiscourseOutcome.raise => []
  | DiscourseOutcome.topics ts => ts.foldl (fun acc t => acc ++ topicContrib s e t) []

/-- The next auto-increment id assigned by SQLite for an
`INTEGER PRIMARY KEY` column: one more than the largest existing id. -/
def nextId (db : List Doc) : ℕ := (db.map (fun r => r.id)).foldl max 0 + 1

/-- One `INSERT INTO content (source, content, url, title, embedding)`:
appends a fresh row with the next auto-increment id; the embedding is
stored as NULL when the computed value is falsy
(`json.dumps(embedding) if embedding else None`). -/
def insertRow (db : List Doc) (it : RawDoc) (emb : Option (List ℚ)) : List Doc :=
  db ++ [{ id := nextId db, source := it.source, content := it.content,
           url := it.url, title := it.title, embedding := pyOptList emb }]

/-- The storage loop of `main`: for each fetched item compute its
embedding, insert a row even if the embedding failed, and count it as
stored. -/
def ingestAll (gw : List Char → Option (List ℚ)) (db : List Doc)
    (items : List RawDoc) : List Doc × ℕ :=
  items.foldl (fun acc it => (insertRow acc.1 it (get_embedding gw it.content), acc.2 + 1))
    (db, 0)

/-- `all_content = github_content + discourse_posts` in `main`. -/
def allContent (listing : ℕ → ListingOutcome) (dl : String → Option (List Char))
    (world : ℕ → DiscourseOutcome) (s e : ℤ) : List RawDoc :=
  (scrape_github listing dl).1 ++ scrape_discourse world s e

/-- `main` of `scrape_data.py`: create the table if missing (the incoming
`db` is the pre-existing table contents), scrape both sources, and run
the storage loop over the concatenation.  The hardcoded window endpoints
`datetime(2025, 1, 1)` and `datetime(2025, 6, 18)` are parameters `s`,
`e` here because the datetime encoding into `ℤ` is abstract.  Returns the
final table and the reported stored count. -/
def main (listing : ℕ → ListingOutcome) (dl : String → Option (List Char))
    (world : ℕ → DiscourseOutcome) (gw : List Char → Option (List ℚ))
    (db : List Doc) (s e : ℤ) : List Doc × ℕ :=
  ingestAll gw db (allContent listing dl world s e)

/-- The id-less stored record that `main` produces for one fetched item. -/
def storedRecord (gw : List Char → Option (List ℚ)) (it : RawDoc) : StoredDoc :=
  { source := it.source, content := it.content, url := it.url, title := it.title,
    embedding := pyOptList (get_embedding gw it.content) }

end Scrape

/-! ### Concrete instances used by counterexamples and witnesses -/


/-- A stored document whose embedding call failed (NULL embedding). -/
def dNo : Doc :=
  { id := 1, source := "github", content := "no".toList, url := "u-no", title := "t-no",
    embedding := none }

/-- A stored document with embedding `[1]` (similarity 1 to query `[1]`). -/
def dHi : Doc :=
  { id := 2, source := "github", content := "hi".toList, url := "u-hi", title := "t-hi",
    embedding := some [1] }

/-- A stored document with embedding `[0]` (similarity 0 to query `[1]`). -/
def dLo : Doc :=
  { id := 3, source := "discourse", content := "lo".toList, url := "u-lo", title := "t-lo",
    embedding := some [0] }

/-- First of two stored documents with identical embeddings (tie). -/
def dT1 : Doc :=
  { id := 4, source := "github", content := "t1".toList, url := "u-t1", title := "t-t1",
    embedding := some [1] }

/-- Second of two stored documents with identical embeddings (tie). -/
def dT2 : Doc :=
  { id := 5, source := "github", content := "t2".toList, url := "u-t2", title := "t-t2",
    embedding := some [1] }

/-- Document 1 of the end-to-end scenario, embedding `[1, 0]`. -/
def doc1 : Doc :=
  { id := 11, source := "github", content := "c1".toList, url := "u1", title := "d1",
    embedding := some [1, 0] }

/-- Document 2 of the end-to-end scenario, embedding `[0, 1]`. -/
def doc2 : Doc :=
  { id := 12, source := "github", content := "c2".toList, url := "u2", title := "d2",
    embedding := some [0, 1] }

/-- Document 3 of the end-to-end scenario, embedding `[0.7, 0.7]`. -/
def doc3 : Doc :=
  { id := 13, source := "discourse", content := "c3".toList, url := "u3", title := "d3",
    embedding := some [7/10, 7/10] }

/-- A GitHub listing entry of type `file` with a markdown name. -/
def gfA : Scrape.GFile :=
  { ftype := "file", name := "a.md", download_url := "dl-a", html_url := "html-a" }

/-- GitHub listing oracle that succeeds on every attempt with `[gfA]`. -/
def listingOk : ℕ → Scrape.ListingOutcome := fun _ => Scrape.ListingOutcome.ok [gfA]

/-- GitHub listing oracle: 503 on attempts 0 and 1, success on attempt 2. -/
def listingThird : ℕ → Scrape.ListingOutcome := fun n =>
  if n = 2 then Scrape.ListingOutcome.ok [gfA] else Scrape.ListingOutcome.err503

/-- GitHub listing oracle that answers 503 on every attempt. -/
def listing503 : ℕ → Scrape.ListingOutcome := fun _ => Scrape.ListingOutcome.err503

/-- Download oracle serving the body of `gfA` only. -/
def dlA : String → Option (List Char) :=
  fun u => if u = "dl-a" then some "hello".toList else none

/-- The raw document scraped from `gfA` via `dlA`. -/
def rawA : RawDoc :=
  { source := "github", content := "hello".toList, url := "html-a", title := "a.md" }

/-- Discourse oracle whose every attempt raises. -/
def worldRaise : ℕ → Scrape.DiscourseOutcome := fun _ => Scrape.DiscourseOutcome.raise

/-- An in-window Discourse post (created at instant 3). -/
def postA : Scrape.DiscoursePost := { created_at := 3, cooked := "pa".toList, post_number := 1 }

/-- An in-window Discourse topic (created on day 2) holding `postA`. -/
def topicA : Scrape.DiscourseTopic :=
  { tid := 42, title := "TA", created_date := 2, posts := some [postA] }

/-- Discourse oracle: raises on attempts 0 and 1, would succeed with
`[topicA]` on attempt 2. -/
def worldThird : ℕ → Scrape.DiscourseOutcome := fun n =>
  if n = 2 then Scrape.DiscourseOutcome.topics [topicA] else Scrape.DiscourseOutcome.raise

/-- Discourse oracle succeeding immediately with `[topicA]`. -/
def worldOk : ℕ → Scrape.DiscourseOutcome := fun _ => Scrape.DiscourseOutcome.topics [topicA]

/-- A post created exactly at the window start `D0 = 0` (inclusive bound). -/
def postD0 : Scrape.DiscoursePost := { created_at := 0, cooked := "p0".toList, post_number := 2 }

/-- A topic created on day `D0 - 1 = -1`, i.e. just before the window,
holding the in-window `postD0`. -/
def topicEarly : Scrape.DiscourseTopic :=
  { tid := 7, title := "TE", created_date := -1, posts := some [postD0] }

/-- Discourse oracle succeeding immediately with `[topicEarly]`. -/
def worldEarly : ℕ → Scrape.DiscourseOutcome := fun _ => Scrape.DiscourseOutcome.topics [topicEarly]

/-- A fetched item whose embedding call will fail under `gwSel`. -/
def itemFail : RawDoc := { source := "github", content := "xf".toList, url := "ux", title := "tx" }

/-- A fetched item whose embedding call succeeds under `gwSel`. -/
def itemOk : RawDoc := { source := "discourse", content := "yk".toList, url := "uy", title := "ty" }

/-- Embedding gateway failing on the content of `itemFail` and returning
`[1]` on everything else. -/
def gwSel : List Char → Option (List ℚ) :=
  fun t => if t = "xf".toList then none else some [1]

/-- Embedding gateway that always fails. -/
def gwNone : List Char → Option (List ℚ) := fun _ => none

/-- The embedding of a document with the `Option` unwrapped (defaults to
`[]`, which never occurs for rows passing the truthiness filter). -/
def embOf (d : Doc) : List ℚ := d.embedding.getD []

/-- Row predicate used to count documents with a given `(source, url)`
identity in the Content Store. -/
def rowMatches (src u : String) (r : Doc) : Bool := r.source == src && r.url == u

/-- The same identity predicate on id-less stored records. -/
def storedMatches (src u : String) (r : StoredDoc) : Bool := r.source == src && r.url == u

/-- The same identity predicate on fetched raw documents. -/
def rawMatches (src u : String) (it : RawDoc) : Bool := it.source == src && it.url == u

/-- Question-embedding gateway returning `[1]` for every input. -/
def gwQ : List Char → Option (List ℚ) := fun _ => some [1]

/-- Generation gateway that always succeeds. -/
def genOk : String → Except String String := fun _ => Except.ok "ans"

/-! ### Ordering properties of the argsort model -/

/-- The strengthened order produced by the stable ascending argsort:
strictly smaller score, or equal score and smaller (earlier) index. -/
def rkRel (s : List ℚ) (a b : ℕ) : Prop :=
  s.getD a 0 < s.getD b 0 ∨ (s.getD a 0 = s.getD b 0 ∧ a < b)

theorem rkRel_le {s : List ℚ} {a b : ℕ} (h : rkRel s a b) :
    s.getD a 0 ≤ s.getD b 0 := by
  rcases h with h | ⟨h, _⟩
  · exact le_of_lt h
  · exact le_of_eq h

theorem mem_ordInsert {s : List ℚ} {i x : ℕ} :
    ∀ {l : List ℕ}, x ∈ ordInsert s i l ↔ x = i ∨ x ∈ l
  | [] => by simp [ordInsert]
  | j :: t => by
    by_cases hc : s.getD i 0 < s.getD j 0
    · simp only [ordInsert, if_pos hc, List.mem_cons]
    · simp only [ordInsert, if_neg hc, List.mem_cons, mem_ordInsert (l := t)]
      tauto

theorem ordInsert_perm (s : List ℚ) (i : ℕ) :
    ∀ (l : List ℕ), (ordInsert s i l).Perm (i :: l)
  | [] => List.Perm.refl _
  | j :: t => by
    by_cases hc : s.getD i 0 < s.getD j 0
    · rw [ordInsert, if_pos hc]
    · rw [ordInsert, if_neg hc]
      exact ((ordInsert_perm s i t).cons j).trans (List.Perm.swap i j t)

theorem ordInsert_pairwise {s : List ℚ} {i : ℕ} :
    ∀ {l : List ℕ}, l.Pairwise (rkRel s) → (∀ j ∈ l, j < i) →
      (ordInsert s i l).Pairwise (rkRel s)
  | [], _, _ => by simp [ordInsert, List.pairwise_cons]
  | j :: t, hp, hlt => by
    obtain ⟨hj, ht⟩ := List.pairwise_cons.mp hp
    by_cases hc : s.getD i 0 < s.getD j 0
    · rw [ordInsert, if_pos hc]
      refine List.pairwise_cons.mpr ⟨?_, hp⟩
      intro x hx
      rcases List.mem_cons.mp hx with rfl | hx
      · exact Or.inl hc
      · exact Or.inl (lt_of_lt_of_le hc (rkRel_le (hj x hx)))
    · rw [ordInsert, if_neg hc]
      refine List.pairwise_cons.mpr
        ⟨?_, ordInsert_pairwise ht (fun a ha => hlt a (List.mem_cons_of_mem _ ha))⟩
      intro x hx
      rcases mem_ordInsert.mp hx with rfl | hx
      · rcases lt_or_eq_of_le (not_lt.mp hc) with h | h
        · exact Or.inl h
        · exact Or.inr ⟨h, hlt j (List.mem_cons_self _ _)⟩
      · exact hj x hx

theorem argsort_aux_perm (s : List ℚ) :
    ∀ (l acc : List ℕ), (l.foldl (fun a i => ordInsert s i a) acc).Perm (l ++ acc)
  | [], acc => by simp
  | i :: t, acc => by
    refine (argsort_aux_perm s t (ordInsert s i acc)).trans ?_
    refine (List.Perm.append_left t (ordInsert_perm s i acc)).trans ?_
    exact List.perm_middle

theorem argsort_perm (s : List ℚ) : (argsort s).Perm (List.range s.length) := by
  simpa using argsort_aux_perm s (List.range s.length) []

theorem argsort_length (s : List ℚ) : (argsort s).length = s.length := by
  simpa using (argsort_perm s).length_eq

theorem mem_argsort_lt {s : List ℚ} {i : ℕ} (h : i ∈ argsort s) : i < s.length := by
  simpa [List.mem_range] using (argsort_perm s).mem_iff.mp h

theorem argsort_aux_pairwise (s : List ℚ) :
    ∀ (l acc : List ℕ), acc.Pairwise (rkRel s) → (∀ j ∈ acc, ∀ i ∈ l, j < i) →
      l.Pairwise (· < ·) →
      (l.foldl (fun a i => ordInsert s i a) acc).Pairwise (rkRel s)
  | [], acc, hacc, _, _ => hacc
  | i :: t, acc, hacc, hsep, hl => by
    obtain ⟨hi, ht⟩ := List.pairwise_cons.mp hl
    refine argsort_aux_pairwise s t (ordInsert s i acc) ?_ ?_ ht
    · exact ordInsert_pairwise hacc (fun j hj => hsep j hj i (List.mem_cons_self _ _))
    · intro j hj x hx
      rcases mem_ordInsert.mp hj with rfl | hj
      · exact hi x hx
      · exact hsep j hj x (List.mem_cons_of_mem _ hx)

theorem argsort_pairwise (s : List ℚ) : (argsort s).Pairwise (rkRel s) := by
  refine argsort_aux_pairwise s (List.range s.length) [] (List.Pairwise.nil) ?_ ?_
  · simp
  · exact List.pairwise_lt_range _

theorem topKIndices_pairwise (s : List ℚ) (k : ℕ) :
    (topKIndices s k).Pairwise (fun a b => rkRel s b a) := by
  unfold topKIndices
  split
  · exact List.pairwise_reverse.mpr (argsort_pairwise s)
  · exact List.pairwise_reverse.mpr
      (List.Pairwise.sublist (List.drop_sublist _ _) (argsort_pairwise s))

theorem mem_topKIndices_lt {s : List ℚ} {k i : ℕ} (h : i ∈ topKIndices s k) :
    i < s.length := by
  unfold topKIndices at h
  split at h <;> rw [List.mem_reverse] at h
  · exact mem_argsort_lt h
  · exact mem_argsort_lt (List.mem_of_mem_drop h)

theorem topKIndices_length {s : List ℚ} {k : ℕ} (hk : k ≠ 0) (hle : k ≤ s.length) :
    (topKIndices s k).length = k := by
  unfold topKIndices
  rw [if_neg hk, List.length_reverse, List.length_drop, argsort_length]
  omega

/-! ### Pipeline lemmas for the query side -/

theorem getItems_eq_map {data : List Doc} :
    ∀ {idxs : List ℕ}, (∀ i ∈ idxs, i < data.length) →
      getItems data idxs = Except.ok (idxs.map (fun i => data.getD i dDoc))
  | [], _ => rfl
  | i :: t, h => by
    have hi : i < data.length := h i (List.mem_cons_self i t)
    have ht := getItems_eq_map (fun a ha => h a (List.mem_cons_of_mem i ha))
    simp [getItems, hi, ht]

theorem filterMap_eq_map_of {f : Doc → Option (List ℚ)} {g : Doc → List ℚ} :
    ∀ {l : List Doc}, (∀ a ∈ l, f a = some (g a)) → l.filterMap f = l.map g
  | [], _ => rfl
  | a :: t, h => by
    have ha := h a (List.mem_cons_self a t)
    have ht := filterMap_eq_map_of (fun x hx => h x (List.mem_cons_of_mem a hx))
    simp [List.filterMap_cons, ha, ht]

theorem npArray_ok {m : List (List ℚ)} {L : ℕ} (h : ∀ r ∈ m, r.length = L) :
    npArray m = Except.ok m := by
  cases m with
  | nil => rfl
  | cons r t =>
    have hr : r.length = L := h r (List.mem_cons_self r t)
    have ht : ∀ x ∈ t, x.length = r.length :=
      fun x hx => (h x (List.mem_cons_of_mem r hx)).trans hr.symm
    simp only [npArray]
    rw [if_pos ht]

theorem npDot_ok {m : List (List ℚ)} {q : List ℚ} (hne : m ≠ [])
    (h : ∀ r ∈ m, r.length = q.length) :
    npDot m q = Except.ok (m.map (fun row => dotProd row q)) := by
  cases m with
  | nil => exact absurd rfl hne
  | cons r t =>
    simp only [npDot]
    rw [if_pos h]

theorem getD_map_eq (f : Doc → ℚ) :
    ∀ (l : List Doc) (i : ℕ), i < l.length → (l.map f).getD i 0 = f (l.getD i dDoc)
  | [], i, h => absurd h (by simp)
  | a :: t, 0, _ => rfl
  | a :: t, n + 1, h => by
    simpa using getD_map_eq f t n (by simpa using h)

theorem presentEmbedding_eq_some {d : Doc} (hne : d.embedding ≠ none)
    (hEmpty : embOf d ≠ []) : App.presentEmbedding d = some (embOf d) := by
  cases he : d.embedding with
  | none => exact absurd he hne
  | some e =>
    have he2 : embOf d = e := by simp [embOf, he]
    rw [he2] at hEmpty ⊢
    simp [App.presentEmbedding, pyOptList, he, hEmpty]

theorem load_data_ok {rows : List Doc} {L : ℕ}
    (hne : ∀ d ∈ rows, d.embedding ≠ none)
    (hlen : ∀ d ∈ rows, (embOf d).length = L) (hL : L ≠ 0) :
    App.load_data (Except.ok rows) App.initState
      = { data := rows, embeddings := some (rows.map embOf) } := by
  have hmap : rows.filterMap App.presentEmbedding = rows.map embOf := by
    refine filterMap_eq_map_of (fun d hd => presentEmbedding_eq_some (hne d hd) ?_)
    intro h0
    apply hL
    rw [← hlen d hd, h0]
    rfl
  have harr : npArray (rows.map embOf) = Except.ok (rows.map embOf) := by
    refine npArray_ok (L := L) ?_
    intro r hr
    rcases List.mem_map.mp hr with ⟨d, hd, rfl⟩
    exact hlen d hd
  simp [App.load_data, hmap, harr]

/-- Full characterisation of the retrieval core on a store whose rows all
carry an embedding of the query dimension: the call succeeds, returns
`min 5 N` documents, and their dot-product scores are descending. -/
theorem top_k_spec {rows : List Doc} {q : List ℚ}
    (hrows : rows ≠ []) (hq : q ≠ [])
    (hne : ∀ d ∈ rows, d.embedding ≠ none)
    (hlen : ∀ d ∈ rows, (embOf d).length = q.length) :
    ∃ top : List Doc,
      App.top_k_data (App.load_data (Except.ok rows) App.initState) q = Except.ok top ∧
      top = (topKIndices (rows.map (fun d => dotProd (embOf d) q)) (min 5 rows.length)).map
              (fun i => rows.getD i dDoc) ∧
      top.length = min 5 rows.length ∧
      (top.map (fun d => dotProd (embOf d) q)).Pairwise (fun a b => b ≤ a) := by
  have hL : q.length ≠ 0 := fun h0 => hq (List.length_eq_zero.mp h0)
  have hload := load_data_ok hne hlen hL
  have hmne : rows.map embOf ≠ [] := by
    intro h0
    exact hrows (List.map_eq_nil_iff.mp h0)
  have hdot : npDot (rows.map embOf) q
      = Except.ok ((rows.map embOf).map (fun row => dotProd row q)) := by
    refine npDot_ok hmne ?_
    intro r hr
    rcases List.mem_map.mp hr with ⟨d, hd, rfl⟩
    exact hlen d hd
  set sims : List ℚ := rows.map (fun d => dotProd (embOf d) q) with hsims
  have hsims2 : (rows.map embOf).map (fun row => dotProd row q) = sims := by
    rw [hsims, List.map_map]
    rfl
  have hlenm : (rows.map embOf).length = rows.length := List.length_map _ _
  have hlens : sims.length = rows.length := by rw [hsims, List.length_map]
  have hN : 0 < rows.length := List.length_pos.mpr hrows
  have hk0 : min 5 rows.length ≠ 0 := by omega
  have hkle : min 5 rows.length ≤ sims.length := by
    rw [hlens]; omega
  have hidx : ∀ i ∈ topKIndices sims (min 5 rows.length), i < rows.length := by
    intro i hi
    have := mem_topKIndices_lt hi
    omega
  have hget := @getItems_eq_map rows _ hidx
  refine ⟨_, ?_, rfl, ?_, ?_⟩
  · rw [hload]
    simp only [App.top_k_data]
    rw [hdot, hsims2, hlenm]
    exact hget
  · rw [List.length_map, topKIndices_length hk0 hkle]
  · rw [List.map_map]
    refine List.pairwise_map.mpr ?_
    refine List.Pairwise.imp_of_mem ?_ (topKIndices_pairwise sims (min 5 rows.length))
    intro a b ha hb hr
    have hla : a < rows.length := hidx a ha
    have hlb : b < rows.length := hidx b hb
    have hga := getD_map_eq (fun d => dotProd (embOf d) q) rows a hla
    have hgb := getD_map_eq (fun d => dotProd (embOf d) q) rows b hlb
    have hle := rkRel_le hr
    rw [← hsims] at hga hgb
    simp only at hga hgb
    rw [hga, hgb] at hle
    exact hle

/-! ### Pipeline lemmas for the ingestion side -/

theorem foldl_append_eq_flatten {α β : Type} (f : α → List β) :
    ∀ (ts : List α) (acc : List β),
      ts.foldl (fun a t => a ++ f t) acc = acc ++ (ts.map f).flatten
  | [], acc => by simp
  | t :: ts, acc => by
    simp [foldl_append_eq_flatten f ts (acc ++ f t), List.append_assoc]

theorem scrape_discourse_topics {world : ℕ → Scrape.DiscourseOutcome} {s e : ℤ}
    {ts : List Scrape.DiscourseTopic} (hw : world 0 = Scrape.DiscourseOutcome.topics ts) :
    Scrape.scrape_discourse world s e = (ts.map (Scrape.topicContrib s e)).flatten := by
  simp [Scrape.scrape_discourse, hw, foldl_append_eq_flatten]

theorem mem_topicContrib_iff {s e : ℤ} {t : Scrape.DiscourseTopic} {r : RawDoc} :
    r ∈ Scrape.topicContrib s e t ↔
      (s ≤ t.created_date ∧ t.created_date ≤ e) ∧
      ∃ ps, t.posts = some ps ∧ ∃ p ∈ ps,
        (s ≤ p.created_at ∧ p.created_at ≤ e) ∧ r = Scrape.mkPostDoc t.tid t.title p := by
  unfold Scrape.topicContrib
  by_cases hwin : s ≤ t.created_date ∧ t.created_date ≤ e
  · rw [if_pos hwin]
    cases hp : t.posts with
    | none => simp [hwin]
    | some ps =>
      simp only [List.mem_filterMap, hwin, true_and, Option.some.injEq]
      constructor
      · rintro ⟨p, hmem, hf⟩
        by_cases hpw : s ≤ p.created_at ∧ p.created_at ≤ e
        · rw [if_pos hpw] at hf
          exact ⟨ps, rfl, p, hmem, hpw, (Option.some.injEq _ _ ▸ hf).symm⟩
        · rw [if_neg hpw] at hf
          cases hf
      · rintro ⟨ps2, hps2, p, hmem, hpw, rfl⟩
        cases hps2
        exact ⟨p, hmem, by rw [if_pos hpw]⟩
  · rw [if_neg hwin]
    simp [hwin]

theorem foldl_max_bounds :
    ∀ (l : List ℕ) (a : ℕ), a ≤ l.foldl max a ∧ ∀ x ∈ l, x ≤ l.foldl max a
  | [], a => ⟨le_refl a, by simp⟩
  | b :: t, a => by
    obtain ⟨h1, h2⟩ := foldl_max_bounds t (max a b)
    refine ⟨le_trans (le_max_left a b) h1, ?_⟩
    intro x hx
    rcases List.mem_cons.mp hx with rfl | hx
    · exact le_trans (le_max_right a x) h1
    · exact h2 x hx

theorem id_lt_nextId {db : List Doc} {r : Doc} (hr : r ∈ db) : r.id < Scrape.nextId db := by
  have := (foldl_max_bounds (db.map (fun x => x.id)) 0).2 r.id
    (List.mem_map_of_mem (fun x => x.id) hr)
  unfold Scrape.nextId
  omega

theorem insertRow_toStored (db : List Doc) (it : RawDoc) (emb : Option (List ℚ)) :
    Scrape.insertRow db it emb
      = db ++ [{ id := Scrape.nextId db, source := it.source, content := it.content,
                 url := it.url, title := it.title, embedding := pyOptList emb }] := rfl

/-- Shape of the storage loop of `main`: starting from table `db` and
counter `c`, it appends exactly one row per item — carrying the item
fields and its (possibly absent) embedding — with fresh ids, and counts
every item. -/
theorem ingest_loop_spec (gw : List Char → Option (List ℚ)) :
    ∀ (items : List RawDoc) (db : List Doc) (c : ℕ),
      (items.foldl
          (fun acc it => (Scrape.insertRow acc.1 it (Scrape.get_embedding gw it.content), acc.2 + 1))
          (db, c)).2 = c + items.length ∧
      ∃ extra : List Doc,
        (items.foldl
            (fun acc it => (Scrape.insertRow acc.1 it (Scrape.get_embedding gw it.content), acc.2 + 1))
            (db, c)).1 = db ++ extra ∧
        extra.map Doc.toStored = items.map (Scrape.storedRecord gw) ∧
        ∀ r ∈ extra, ∀ rOld ∈ db, rOld.id < r.id
  | [], db, c => ⟨by simp, [], by simp, by simp, by simp⟩
  | it :: t, db, c => by
    obtain ⟨hc, extra, he, hm, hf⟩ :=
      ingest_loop_spec gw t (Scrape.insertRow db it (Scrape.get_embedding gw it.content)) (c + 1)
    rw [insertRow_toStored] at he hf
    refine ⟨?_,
      { id := Scrape.nextId db, source := it.source, content := it.content,
        url := it.url, title := it.title,
        embedding := pyOptList (Scrape.get_embedding gw it.content) } :: extra,
      ?_, ?_, ?_⟩
    · simp only [List.foldl_cons, List.length_cons]
      rw [hc]
      omega
    · simp only [List.foldl_cons]
      rw [insertRow_toStored, he]
      simp [List.append_assoc]
    · simp only [List.map_cons, hm]
      rfl
    · intro r hr rOld hOld
      rcases List.mem_cons.mp hr with rfl | hr
      · exact id_lt_nextId hOld
      · exact hf r hr rOld (List.mem_append_left _ hOld)

/-- Shape of a whole ingestion run (`ingestAll` starts the loop counter at
zero, as `main` does). -/
theorem ingestAll_spec (gw : List Char → Option (List ℚ)) (items : List RawDoc)
    (db : List Doc) :
    (Scrape.ingestAll gw db items).2 = items.length ∧
    ∃ extra : List Doc,
      (Scrape.ingestAll gw db items).1 = db ++ extra ∧
      extra.map Doc.toStored = items.map (Scrape.storedRecord gw) ∧
      ∀ r ∈ extra, ∀ rOld ∈ db, rOld.id < r.id := by
  simpa [Scrape.ingestAll] using ingest_loop_spec gw items db 0

/-- Counting rows by `(source, url)` identity: a run adds one matching row
per matching fetched item, on top of whatever the table already holds. -/
theorem ingest_count (gw : List Char → Option (List ℚ)) (items : List RawDoc)
    (db : List Doc) (src u : String) :
    ((Scrape.ingestAll gw db items).1.filter (rowMatches src u)).length
      = (db.filter (rowMatches src u)).length
        + (items.filter (rawMatches src u)).length := by
  obtain ⟨-, extra, he, hm, -⟩ := ingestAll_spec gw items db
  rw [he, List.filter_append, List.length_append]
  congr 1
  rw [← List.countP_eq_length_filter, ← List.countP_eq_length_filter]
  have h1 : extra.countP (rowMatches src u)
      = (extra.map Doc.toStored).countP (storedMatches src u) := by
    rw [List.countP_map]
    rfl
  have h2 : (items.map (Scrape.storedRecord gw)).countP (storedMatches src u)
      = items.countP (rawMatches src u) := by
    rw [List.countP_map]
    rfl
  rw [h1, hm, h2]

/-! ### Claim theorems -/

/-- C3 (amended): for a fixed corpus and query the selection is trivially
deterministic (a pure function of its inputs), but the tie-break is the
reverse of the claimed one: along the selected index list, an earlier
entry has a strictly larger score, or an equal score and a larger
Content-Store position — the later-inserted document wins ties, because
the ascending stable argsort is reversed by the trailing `[::-1]`. -/
theorem claim_C3 :
    (∀ gw st question gen,
      App.answer_question gw st question gen = App.answer_question gw st question gen) ∧
    ∀ (sims : List ℚ) (k : ℕ),
      (topKIndices sims k).Pairwise (fun i j =>
        sims.getD j 0 < sims.getD i 0 ∨ (sims.getD i 0 = sims.getD j 0 ∧ j < i)) := by
  refine ⟨fun _ _ _ _ => rfl, fun sims k => ?_⟩
  refine (topKIndices_pairwise sims k).imp ?_
  intro a b h
  rcases h with h | ⟨h, hlt⟩
  · exact Or.inl h
  · exact Or.inr ⟨h.symm, hlt⟩

/-- C3 counterexample: two stored documents with identical embeddings
(hence equal scores); the query returns the later-inserted `dT2` first,
refuting the claimed earlier-inserted-first tie-break. -/
theorem claim_C3_counterexample :
    App.top_k_data (App.load_data (Except.ok [dT1, dT2]) App.initState) [1]
      = Except.ok [dT2, dT1] ∧ dT1 ≠ dT2 := by
  constructor
  · norm_num [App.top_k_data, App.load_data, App.initState, App.presentEmbedding, pyOptList,
      npArray, npDot, dotProd, topKIndices, argsort, ordInsert, getItems, List.range_succ,
      List.filterMap_cons, dT1, dT2]
  · simp [dT1, dT2]

/-- C4 (amended): re-ingestion does not deduplicate: a run unconditionally
appends one row per fetched item, each with a fresh auto-increment id
larger than every pre-existing id, so the store gains one row with a given
`(source, url)` identity per matching fetched item of every run, on top of
the matching rows it already holds. -/
theorem claim_C4 (listing : ℕ → Scrape.ListingOutcome) (dl : String → Option (List Char))
    (world : ℕ → Scrape.DiscourseOutcome) (gw : List Char → Option (List ℚ))
    (db : List Doc) (s e : ℤ) (src u : String) :
    ((Scrape.main listing dl world gw db s e).1.filter (rowMatches src u)).length
      = (db.filter (rowMatches src u)).length
        + ((Scrape.allContent listing dl world s e).filter (rawMatches src u)).length ∧
    ∃ extra : List Doc,
      (Scrape.main listing dl world gw db s e).1 = db ++ extra ∧
      extra.map Doc.toStored
        = (Scrape.allContent listing dl world s e).map (Scrape.storedRecord gw) ∧
      ∀ r ∈ extra, ∀ rOld ∈ db, rOld.id < r.id :=
  ⟨ingest_count gw (Scrape.allContent listing dl world s e) db src u,
   (ingestAll_spec gw (Scrape.allContent listing dl world s e) db).2⟩

/-- C4 witness: the row-count identity of the amended claim instantiated
at a concrete single-file GitHub run over an empty store. -/
theorem claim_C4_witness :
    ((Scrape.main listingOk dlA worldRaise gwNone [] 0 1).1.filter
        (rowMatches "github" "html-a")).length
      = (([] : List Doc).filter (rowMatches "github" "html-a")).length
        + ((Scrape.allContent listingOk dlA worldRaise 0 1).filter
            (rawMatches "github" "html-a")).length :=
  (claim_C4 listingOk dlA worldRaise gwNone [] 0 1 "github" "html-a").1

/-- C9: on both the ingestion path and the query path the embedding
gateway receives the original text truncated to at most 8192 characters —
the whole text when it is short enough, exactly the first 8192 characters
otherwise — and the truncation happens before the gateway call. -/
theorem claim_C9 (gw : List Char → Option (List ℚ)) (t : List Char) :
    Scrape.get_embedding gw t = gw (truncatedInput t) ∧
    App.get_embedding gw t = (match gw (truncatedInput t) with
      | some v => Except.ok v
      | none => Except.error "Embedding error") ∧
    truncatedInput t = (if t.length ≤ 8192 then t else t.take 8192) ∧
    (truncatedInput t).length = min 8192 t.length ∧
    truncatedInput t ++ t.drop 8192 = t := by
  refine ⟨rfl, rfl, ?_, ?_, ?_⟩
  · by_cases h : t.length ≤ 8192
    · rw [if_pos h]
      exact List.take_of_length_le h
    · rw [if_neg h]
      rfl
  · exact List.length_take 8192 t
  · exact List.take_append_drop 8192 t

/-- C10: when reading the Content Store at startup fails, the exception is
caught, the service keeps the import-time state — empty document list and
unset embeddings matrix — and every subsequent answer request produces an
error response (never a partial answer): the question-embedding step
either fails, or the `np.dot` on the unset matrix raises, and in both
cases the handler returns the single wrapped error. -/
theorem claim_C10 (err : String) (gw : List Char → Option (List ℚ))
    (question : List Char) (gen : String → Except String String) :
    App.load_data (Except.error err) App.initState = App.initState ∧
    App.initState.data = [] ∧
    App.initState.embeddings = none ∧
    ∃ msg, App.answer_question gw (App.load_data (Except.error err) App.initState)
        question gen = Except.error msg := by
  refine ⟨rfl, rfl, rfl, ?_⟩
  cases hge : gw (truncatedInput question) with
  | none =>
    refine ⟨"Error processing request: Embedding error", ?_⟩
    simp [App.answer_question, App.get_embedding, hge]
  | some q =>
    refine ⟨"Error processing request: TypeError: unsupported operand", ?_⟩
    simp [App.answer_question, App.get_embedding, hge, App.top_k_data, App.load_data,
      App.initState]

/-- C1: evaluation of the code at the failing input.  The spec claims the
returned documents are the ones whose embeddings produced the top scores
even when some stored documents lack an embedding, but the handler indexes
the unfiltered `data` list with positions taken from the filtered
embeddings matrix: on the store `[dNo (NULL embedding), dHi (score 1),
dLo (score 0)]` with query `[1]`, scores are `[1, 0]`, the top-2 matrix
rows are 0 and 1, and the handler returns `data[0], data[1] = [dNo, dHi]`
— including the embedding-less `dNo` and dropping the scored `dLo` —
instead of the claimed `[dHi, dLo]`. -/
theorem claim_C1 :
    App.top_k_data (App.load_data (Except.ok [dNo, dHi, dLo]) App.initState) [1]
        = Except.ok [dNo, dHi] ∧
    dNo.embedding = none ∧
    ([dNo, dHi] : List Doc) ≠ [dHi, dLo] := by
  refine ⟨?_, rfl, ?_⟩
  · norm_num [App.top_k_data, App.load_data, App.initState, App.presentEmbedding, pyOptList,
      npArray, npDot, dotProd, topKIndices, argsort, ordInsert, getItems, List.range_succ,
      List.filterMap_cons, dNo, dHi, dLo]
  · simp [dNo, dHi, dLo]

/-- C2 (amended): for a corpus with zero embedded documents (`N = 0`) the
query does not return an empty result set: the `np.dot` of the empty
`(0,)`-shaped embeddings array with the question embedding raises, and the
endpoint surfaces the wrapped error response. -/
theorem claim_C2 (rows : List Doc) (q : List ℚ) (gw : List Char → Option (List ℚ))
    (question : List Char) (gen : String → Except String String)
    (hflt : ∀ d ∈ rows, App.presentEmbedding d = none)
    (hgw : gw (truncatedInput question) = some q) :
    App.answer_question gw (App.load_data (Except.ok rows) App.initState) question gen
      = Except.error "Error processing request: np.dot: shapes not aligned" := by
  have hmap : rows.filterMap App.presentEmbedding = [] :=
    List.filterMap_eq_nil_iff.mpr hflt
  have hload : App.load_data (Except.ok rows) App.initState
      = { data := rows, embeddings := some [] } := by
    simp [App.load_data, hmap, npArray]
  rw [hload]
  simp only [App.answer_question, App.get_embedding, hgw, App.top_k_data, npDot]
  rfl

/-- C2 counterexample: the store holding only the embedding-less `dNo`
(so `N = 0` embedded documents); the query request errors instead of
returning the claimed empty result set. -/
theorem claim_C2_counterexample :
    App.answer_question gwQ (App.load_data (Except.ok [dNo]) App.initState) "q".toList genOk
      = Except.error "Error processing request: np.dot: shapes not aligned" := by
  norm_num [App.answer_question, App.get_embedding, gwQ, genOk, App.load_data, App.initState,
    App.presentEmbedding, pyOptList, npArray, npDot, App.top_k_data, List.filterMap_cons, dNo,
    truncatedInput]
  rfl

/-- C2 witness: the amended claim applied to the empty store. -/
theorem claim_C2_witness :
    App.answer_question gwQ (App.load_data (Except.ok []) App.initState) "w".toList genOk
      = Except.error "Error processing request: np.dot: shapes not aligned" :=
  claim_C2 [] [1] gwQ "w".toList genOk (by simp) rfl

/-- C5 (amended): for every corpus of `N ≥ 1` documents whose embeddings
are all present and of the query dimension, the query succeeds and returns
exactly `min 5 N` results in descending dot-product order; the end-to-end
scenario (embeddings `[1,0]`, `[0,1]`, `[0.7,0.7]`, query `[1,0]`, ranking
doc1 > doc3 > doc2 with `k = 3`) is an instance.  The unrestricted claim
fails at `N = 0`, where the query errors instead of returning zero
results. -/
theorem claim_C5 (rows : List Doc) (q : List ℚ)
    (hrows : rows ≠ []) (hq : q ≠ [])
    (hne : ∀ d ∈ rows, d.embedding ≠ none)
    (hlen : ∀ d ∈ rows, (embOf d).length = q.length) :
    ∃ top : List Doc,
      App.top_k_data (App.load_data (Except.ok rows) App.initState) q = Except.ok top ∧
      top.length = min 5 rows.length ∧
      (top.map (fun d => dotProd (embOf d) q)).Pairwise (fun a b => b ≤ a) := by
  obtain ⟨top, h1, -, h3, h4⟩ := top_k_spec hrows hq hne hlen
  exact ⟨top, h1, h3, h4⟩

/-- C5 counterexample: on the empty corpus the claim promises
`min 5 0 = 0` results, but the query raises at the `np.dot` step and
yields an error, not a result list. -/
theorem claim_C5_counterexample :
    App.top_k_data (App.load_data (Except.ok []) App.initState) [1, 0]
      = Except.error "np.dot: shapes not aligned" ∧ min 5 0 = 0 := by
  constructor
  · rfl
  · rfl

/-- C5 witness: the amended claim applied to the end-to-end scenario
corpus, together with the exact ranking it produces there. -/
theorem claim_C5_witness :
    App.top_k_data (App.load_data (Except.ok [doc1, doc2, doc3]) App.initState) [1, 0]
        = Except.ok [doc1, doc3, doc2] ∧
    (∃ top : List Doc,
      App.top_k_data (App.load_data (Except.ok [doc1, doc2, doc3]) App.initState) [1, 0]
          = Except.ok top ∧
      top.length = min 5 3 ∧
      (top.map (fun d => dotProd (embOf d) [1, 0])).Pairwise (fun a b => b ≤ a)) := by
  constructor
  · norm_num [App.top_k_data, App.load_data, App.initState, App.presentEmbedding, pyOptList,
      npArray, npDot, dotProd, topKIndices, argsort, ordInsert, getItems, List.range_succ,
      List.filterMap_cons, List.cons_ne_nil, ne_eq, doc1, doc2, doc3]
  · exact claim_C5 [doc1, doc2, doc3] [1, 0] (by simp) (by simp) (by decide) (by decide)

/-- C6: the ingestion run persists every fetched item regardless of its
embedding outcome: the stored count equals the number of items, the
resulting table extends the previous one by exactly one row per item
carrying the gateway outcome (a failed call as an absent embedding, a
successful call as the returned vector), a per-item failure never aborts
the run, and `main` is exactly this loop over the concatenated fetched
content. -/
theorem claim_C6 (gw : List Char → Option (List ℚ)) (items : List RawDoc) (db : List Doc)
    (hgw : ∀ t v, gw t = some v → v ≠ []) :
    (Scrape.ingestAll gw db items).2 = items.length ∧
    (Scrape.ingestAll gw db items).1.map Doc.toStored
      = db.map Doc.toStored ++ items.map (Scrape.storedRecord gw) ∧
    (∀ it ∈ items, (Scrape.storedRecord gw it).embedding
        = Scrape.get_embedding gw it.content) ∧
    ∀ (listing : ℕ → Scrape.ListingOutcome) (dl : String → Option (List Char))
      (world : ℕ → Scrape.DiscourseOutcome) (s e : ℤ) (db2 : List Doc),
      Scrape.main listing dl world gw db2 s e
        = Scrape.ingestAll gw db2 (Scrape.allContent listing dl world s e) := by
  obtain ⟨hc, extra, he, hm, -⟩ := ingestAll_spec gw items db
  refine ⟨hc, ?_, ?_, fun _ _ _ _ _ _ => rfl⟩
  · rw [he, List.map_append, hm]
  · intro it hit
    simp only [Scrape.storedRecord]
    cases hge : Scrape.get_embedding gw it.content with
    | none => rfl
    | some v =>
      have hv : v ≠ [] := hgw _ _ hge
      simp [pyOptList, hv]

/-- C6 witness: a two-item run in which the gateway fails on the first
item and succeeds on the second; both are stored (the first with an
absent embedding, the second with the returned vector) and both are
counted. -/
theorem claim_C6_witness :
    (Scrape.ingestAll gwSel [] [itemFail, itemOk]).2 = 2 ∧
    (Scrape.ingestAll gwSel [] [itemFail, itemOk]).1.map (fun r => r.embedding)
      = [none, some [1]] := by
  have hgw : ∀ t v, gwSel t = some v → v ≠ [] := by
    intro t v h
    simp only [gwSel] at h
    split at h
    · cases h
    · cases h
      simp
  constructor
  · exact (claim_C6 gwSel [itemFail, itemOk] [] hgw).1
  · norm_num [Scrape.ingestAll, Scrape.insertRow, Scrape.nextId, Scrape.get_embedding,
      truncatedInput, pyOptList, gwSel, itemFail, itemOk]
    decide

/-- C7 (amended): only the GitHub fetcher retries, and only on HTTP 503:
two 503 responses followed by a success return the successful result
after back-off delays 1 and 2 (doubling from a 1-unit base, 3 attempts in
total); three 503 responses return the empty list without raising after
delays 1, 2, 4; the Discourse fetcher performs a single attempt and maps
any failure to the empty list — it has no retry loop at all. -/
theorem claim_C7 :
    (∀ (listing : ℕ → Scrape.ListingOutcome) (dl : String → Option (List Char))
       (files : List Scrape.GFile),
       listing 0 = Scrape.ListingOutcome.err503 →
       listing 1 = Scrape.ListingOutcome.err503 →
       listing 2 = Scrape.ListingOutcome.ok files →
       Scrape.scrape_github listing dl = (Scrape.githubFiles dl files, [1, 2])) ∧
    (∀ (listing : ℕ → Scrape.ListingOutcome) (dl : String → Option (List Char)),
       listing 0 = Scrape.ListingOutcome.err503 →
       listing 1 = Scrape.ListingOutcome.err503 →
       listing 2 = Scrape.ListingOutcome.err503 →
       Scrape.scrape_github listing dl = ([], [1, 2, 4])) ∧
    (∀ (world : ℕ → Scrape.DiscourseOutcome) (s e : ℤ),
       world 0 = Scrape.DiscourseOutcome.raise →
       Scrape.scrape_discourse world s e = []) := by
  refine ⟨?_, ?_, ?_⟩
  · intro listing dl files h0 h1 h2
    norm_num [Scrape.scrape_github, Scrape.githubAttemptLoop, h0, h1, h2]
  · intro listing dl h0 h1 h2
    norm_num [Scrape.scrape_github, Scrape.githubAttemptLoop, h0, h1, h2]
  · intro world s e h0
    simp [Scrape.scrape_discourse, h0]

/-- C7 counterexample: a Discourse upstream raising on the first two
attempts and succeeding (with an in-window post) on the third; the
fetcher returns the empty list, not the successful result the claimed
three-attempt retry would produce. -/
theorem claim_C7_counterexample :
    Scrape.scrape_discourse worldThird 0 10 = [] ∧
    Scrape.scrape_discourse worldOk 0 10 = [Scrape.mkPostDoc 42 "TA" postA] ∧
    ([] : List RawDoc) ≠ [Scrape.mkPostDoc 42 "TA" postA] := by
  refine ⟨rfl, ?_, by simp⟩
  norm_num [Scrape.scrape_discourse, worldOk, Scrape.topicContrib, topicA, postA,
    List.filterMap_cons]

/-- C7 witness: the amended claim instantiated at concrete oracles — the
succeed-on-third-attempt GitHub listing, the always-503 listing, and the
raising Discourse session. -/
theorem claim_C7_witness :
    Scrape.scrape_github listingThird dlA = (Scrape.githubFiles dlA [gfA], [1, 2]) ∧
    Scrape.scrape_github listing503 dlA = ([], [1, 2, 4]) ∧
    Scrape.scrape_discourse worldRaise 0 10 = [] :=
  ⟨(claim_C7).1 listingThird dlA [gfA] rfl rfl rfl,
   (claim_C7).2.1 listing503 dlA rfl rfl rfl,
   (claim_C7).2.2 worldRaise 0 10 rfl⟩

/-- C8 (amended): in a successful fetch, a post is yielded iff its own
creation timestamp lies in the caller-supplied inclusive window AND its
containing topic qualifies too (topic creation date inside the window,
topic detail fetch returning status 200); in particular a post whose own
timestamp is in range is dropped when its topic was created before the
window. -/
theorem claim_C8 (world : ℕ → Scrape.DiscourseOutcome) (s e : ℤ)
    (ts : List Scrape.DiscourseTopic)
    (hw : world 0 = Scrape.DiscourseOutcome.topics ts) :
    (∀ r ∈ Scrape.scrape_discourse world s e,
      ∃ t ∈ ts, ∃ ps, t.posts = some ps ∧ ∃ p ∈ ps,
        r = Scrape.mkPostDoc t.tid t.title p ∧
        s ≤ t.created_date ∧ t.created_date ≤ e ∧
        s ≤ p.created_at ∧ p.created_at ≤ e) ∧
    (∀ t ∈ ts, ∀ ps, t.posts = some ps → ∀ p ∈ ps,
      s ≤ t.created_date → t.created_date ≤ e →
      s ≤ p.created_at → p.created_at ≤ e →
      Scrape.mkPostDoc t.tid t.title p ∈ Scrape.scrape_discourse world s e) := by
  rw [scrape_discourse_topics hw]
  constructor
  · intro r hr
    rcases List.mem_flatten.mp hr with ⟨l, hl, hrl⟩
    rcases List.mem_map.mp hl with ⟨t, ht, rfl⟩
    rcases mem_topicContrib_iff.mp hrl with ⟨⟨h1, h2⟩, ps, hps, p, hp, ⟨h3, h4⟩, rfl⟩
    exact ⟨t, ht, ps, hps, p, hp, rfl, h1, h2, h3, h4⟩
  · intro t ht ps hps p hp h1 h2 h3 h4
    refine List.mem_flatten.mpr ⟨Scrape.topicContrib s e t, List.mem_map_of_mem _ ht, ?_⟩
    exact mem_topicContrib_iff.mpr ⟨⟨h1, h2⟩, ps, hps, p, hp, ⟨h3, h4⟩, rfl⟩

/-- C8 counterexample: `postD0` is created exactly at the window start
(`D0 = 0`, inside the inclusive range `[0, 10]`), yet the fetcher yields
nothing because the containing topic was created on day `D0 - 1`. -/
theorem claim_C8_counterexample :
    ((0 : ℤ) ≤ postD0.created_at ∧ postD0.created_at ≤ 10) ∧
    Scrape.scrape_discourse worldEarly 0 10 = [] := by
  exact ⟨⟨by norm_num [postD0], by norm_num [postD0]⟩, rfl⟩

/-- C8 witness: the amended claim applied to a concrete in-window topic
and post — the inclusive boundary case is exercised by `claim_C8` at the
window endpoints. -/
theorem claim_C8_witness :
    Scrape.mkPostDoc 42 "TA" postA ∈ Scrape.scrape_discourse worldOk 0 10 := by
  have h := (claim_C8 worldOk 0 10 [topicA] rfl).2
  exact h topicA (by simp) [postA] rfl postA (by simp)
    (by norm_num [topicA]) (by norm_num [topicA]) (by norm_num [postA]) (by norm_num [postA])

/-- C4 counterexample: running the ingestion twice over the same upstream
content (one GitHub markdown file, identity `("github", "html-a")`)
leaves the store with two rows of that identity — the re-ingested logical
document is duplicated, not stored exactly once. -/
theorem claim_C4_counterexample :
    ((Scrape.main listingOk dlA worldRaise gwNone
        (Scrape.main listingOk dlA worldRaise gwNone [] 0 1).1 0 1).1.filter
        (rowMatches "github" "html-a")).length = 2 ∧ (2 : ℕ) ≠ 1 := by
  constructor
  · decide
  · decide
